import Mathlib

/-
Verification of the jquants ingestion pipeline (jquants_step1_2.py,
jquants_step3.py) and the screening script (select_stocks.py).

Shallow embedding conventions:
- SQLite tables are association lists keyed by the primary key; INSERT OR
  IGNORE is insert-if-absent, INSERT OR REPLACE deletes the conflicting row
  and appends the new one, DELETE/UPDATE filter/map the list.
- Calendar dates are Nat (abstract day numbers); strftime/strptime are
  order- and successor-preserving bijections between dates and their string
  forms, so adding one day is Nat.succ and MAX/ORDER BY work on the Nat.
- gzip-compressed JSON payloads are modelled by the record itself (the
  encoding is injective and never inspected by the code under scrutiny).
- The paginated HTTP endpoint is modelled by the list of response pages the
  server would hand out along the cursor chain; each page carries its
  records and the optional pagination_key of the response.
- Network fetch outcomes in the orchestrators are oracles (Nat -> Bool);
  a False outcome stands for a raised transport error caught by the
  surrounding try/except.
-/

namespace JQuants

/-! ### Association-list model of the SQLite tables -/

/-- Composite primary key: (Date, Code) for quotes, (DisclosedDate,
LocalCode) for financial statements. -/
abbrev Key := String × String

abbrev Table (α : Type) := List (Key × α)

def keys {α : Type} (t : Table α) : List Key := t.map Prod.fst

/-- INSERT OR IGNORE: append the row unless the key is already present. -/
def insertIfAbsent {α : Type} (t : Table α) (k : Key) (v : α) : Table α :=
  if k ∈ keys t then t else t ++ [(k, v)]

/-- Number of rows of the table carrying the given key. -/
def countKey {α : Type} (t : Table α) (k : Key) : Nat :=
  @List.count Key instBEqOfDecidableEq k (keys t)

/-- The PRIMARY KEY invariant of a SQLite table: no duplicate keys. -/
def NoDupKeys {α : Type} (t : Table α) : Prop := (keys t).Nodup

/-! ### Records and the dual-write store -/

/-- One element of the daily_quotes response array. Only the key fields are
named; the remaining payload is opaque to the pipeline. -/
structure Quote where
  Date : String
  Code : String
  body : String
deriving DecidableEq, Repr

def quoteKey (q : Quote) : Key := (q.Date, q.Code)

/-- One element of the statements response array. -/
structure Statement where
  DisclosedDate : String
  LocalCode : String
  body : String
deriving DecidableEq, Repr

def stmtKey (s : Statement) : Key := (s.DisclosedDate, s.LocalCode)

/-- The pair of tables a dataset is written to: raw is the compressed
archive (daily_quotes_raw / financials_raw), norm the normalized table
(daily_quotes / financials). -/
structure DB (α : Type) where
  raw : Table α
  norm : Table α
deriving DecidableEq, Repr

/-- Dual write of one record, both INSERT OR IGNORE, as performed inside
the page loops of fetch_one_day, fetch_daily_quotes_one_day and
fetch_financials_one_day. -/
def write_rec {α : Type} (key : α → Key) (db : DB α) (r : α) : DB α :=
  { raw := insertIfAbsent db.raw (key r) r
    norm := insertIfAbsent db.norm (key r) r }

/-- All records of one response page, written in response order. -/
def write_page {α : Type} (key : α → Key) (db : DB α) (rs : List α) : DB α :=
  rs.foldl (write_rec key) db

/-! ### Paginated responses -/

/-- One response of the paginated endpoint: the record array plus the
optional pagination_key field. -/
structure Page (α : Type) where
  records : List α
  cursor : Option String
deriving DecidableEq, Repr

/-- Python truthiness of data.get("pagination_key"): None and the empty
string are falsy. -/
def truthy : Option String → Bool
  | none => false
  | some s => !s.isEmpty

/-- The list of pages is a well-formed cursor chain: nonempty, every page
but the last announces a continuation, the last one does not. -/
def chainB {α : Type} : List (Page α) → Bool
  | [] => false
  | p :: rest =>
    match rest with
    | [] => !truthy p.cursor
    | _ :: _ => truthy p.cursor && chainB rest

/-- Every page that still announces a continuation carries at least one
record. -/
def pages_ok {α : Type} (pages : List (Page α)) : Bool :=
  pages.all fun p => !truthy p.cursor || !p.records.isEmpty

/-- All records of the chain, in response order. -/
def all_records {α : Type} (pages : List (Page α)) : List α :=
  (pages.map Page.records).flatten

/-! ### The per-date fetch loops -/

/-- fetch_one_day of jquants_step1_2.py: drains the cursor chain, but
breaks as soon as a page has an empty record array (before looking at the
pagination_key), writes each record to both tables and counts the records
it processed. -/
def fetch_one_day_go : List (Page Quote) → DB Quote → Nat → DB Quote × Nat
  | [], db, saved => (db, saved)
  | p :: rest, db, saved =>
    if p.records.isEmpty then (db, saved)
    else
      let db' := write_page quoteKey db p.records
      let saved' := saved + p.records.length
      if truthy p.cursor then fetch_one_day_go rest db' saved' else (db', saved')

def fetch_one_day (pages : List (Page Quote)) (db : DB Quote) : DB Quote × Nat :=
  fetch_one_day_go pages db 0

/-- The shared shape of the two step-3 page loops: write every record of
the page, continue while the response carries a truthy pagination_key;
no count is accumulated and no empty-page break exists. -/
def drain_step3 {α : Type} (key : α → Key) : List (Page α) → DB α → DB α
  | [], db => db
  | p :: rest, db =>
    let db' := write_page key db p.records
    if truthy p.cursor then drain_step3 key rest db' else db'

/-- fetch_daily_quotes_one_day of jquants_step3.py. -/
def fetch_daily_quotes_one_day (pages : List (Page Quote)) (db : DB Quote) : DB Quote :=
  drain_step3 quoteKey pages db

/-- fetch_financials_one_day of jquants_step3.py (the FIN_COL_MAP column
renaming only affects column names inside one row, not the keyed row set
modelled here). -/
def fetch_financials_one_day (pages : List (Page Statement)) (db : DB Statement) : DB Statement :=
  drain_step3 stmtKey pages db

/-! ### Basic store lemmas -/

theorem keys_append {α : Type} (t₁ t₂ : Table α) : keys (t₁ ++ t₂) = keys t₁ ++ keys t₂ := by
  simp [keys]

theorem insertIfAbsent_of_mem {α : Type} {t : Table α} {k : Key} (v : α)
    (h : k ∈ keys t) : insertIfAbsent t k v = t := by
  simp [insertIfAbsent, h]

theorem mem_keys_insertIfAbsent_self {α : Type} (t : Table α) (k : Key) (v : α) :
    k ∈ keys (insertIfAbsent t k v) := by
  unfold insertIfAbsent
  by_cases h : k ∈ keys t
  · simpa [h]
  · rw [if_neg h, keys_append]
    simp [keys]

theorem mem_keys_insertIfAbsent_of_mem {α : Type} {t : Table α} {k' : Key} (k : Key) (v : α)
    (h : k' ∈ keys t) : k' ∈ keys (insertIfAbsent t k v) := by
  by_cases hk : k ∈ keys t
  · simpa [insertIfAbsent, hk]
  · simp [insertIfAbsent, hk, keys_append]
    exact Or.inl h

theorem nodup_insertIfAbsent {α : Type} {t : Table α} (k : Key) (v : α)
    (h : NoDupKeys t) : NoDupKeys (insertIfAbsent t k v) := by
  by_cases hk : k ∈ keys t
  · simpa [insertIfAbsent, hk]
  · unfold NoDupKeys at h ⊢
    simp only [insertIfAbsent, hk, if_false, keys_append]
    rw [List.nodup_append]
    refine ⟨h, by simp [keys], ?_⟩
    intro a ha hb
    simp [keys] at hb
    subst hb
    exact hk ha

theorem write_page_append {α : Type} (key : α → Key) (db : DB α) (as bs : List α) :
    write_page key db (as ++ bs) = write_page key (write_page key db as) bs := by
  simp [write_page, List.foldl_append]

theorem keys_raw_mono {α : Type} (key : α → Key) (rs : List α) {db : DB α} {k : Key}
    (h : k ∈ keys db.raw) : k ∈ keys (write_page key db rs).raw := by
  induction rs generalizing db with
  | nil => simpa [write_page]
  | cons a rs ih =>
    simp only [write_page, List.foldl_cons]
    exact ih (mem_keys_insertIfAbsent_of_mem _ _ h)

theorem keys_norm_mono {α : Type} (key : α → Key) (rs : List α) {db : DB α} {k : Key}
    (h : k ∈ keys db.norm) : k ∈ keys (write_page key db rs).norm := by
  induction rs generalizing db with
  | nil => simpa [write_page]
  | cons a rs ih =>
    simp only [write_page, List.foldl_cons]
    exact ih (mem_keys_insertIfAbsent_of_mem _ _ h)

theorem mem_keys_write_page_raw {α : Type} (key : α → Key) {rs : List α} {r : α}
    (db : DB α) (h : r ∈ rs) : key r ∈ keys (write_page key db rs).raw := by
  induction rs generalizing db with
  | nil => cases h
  | cons a rs ih =>
    rcases List.mem_cons.mp h with h | h
    · subst h
      simp only [write_page, List.foldl_cons]
      exact keys_raw_mono key rs (mem_keys_insertIfAbsent_self _ _ _)
    · simp only [write_page, List.foldl_cons]
      exact ih _ h

theorem mem_keys_write_page_norm {α : Type} (key : α → Key) {rs : List α} {r : α}
    (db : DB α) (h : r ∈ rs) : key r ∈ keys (write_page key db rs).norm := by
  induction rs generalizing db with
  | nil => cases h
  | cons a rs ih =>
    rcases List.mem_cons.mp h with h | h
    · subst h
      simp only [write_page, List.foldl_cons]
      exact keys_norm_mono key rs (mem_keys_insertIfAbsent_self _ _ _)
    · simp only [write_page, List.foldl_cons]
      exact ih _ h

theorem write_rec_of_present {α : Type} (key : α → Key) {db : DB α} {r : α}
    (h1 : key r ∈ keys db.raw) (h2 : key r ∈ keys db.norm) : write_rec key db r = db := by
  simp [write_rec, insertIfAbsent_of_mem _ h1, insertIfAbsent_of_mem _ h2]

theorem write_page_of_present {α : Type} (key : α → Key) {db : DB α} {rs : List α}
    (h : ∀ r ∈ rs, key r ∈ keys db.raw ∧ key r ∈ keys db.norm) :
    write_page key db rs = db := by
  induction rs with
  | nil => rfl
  | cons a rs ih =>
    have ha := h a (by simp)
    simp only [write_page, List.foldl_cons, write_rec_of_present key ha.1 ha.2]
    exact ih fun r hr => h r (by simp [hr])

theorem write_page_idem {α : Type} (key : α → Key) (db : DB α) (rs : List α) :
    write_page key (write_page key db rs) rs = write_page key db rs :=
  write_page_of_present key fun r hr =>
    ⟨mem_keys_write_page_raw key db hr, mem_keys_write_page_norm key db hr⟩

theorem nodup_write_page_raw {α : Type} (key : α → Key) (rs : List α) {db : DB α}
    (h : NoDupKeys db.raw) : NoDupKeys (write_page key db rs).raw := by
  induction rs generalizing db with
  | nil => simpa [write_page]
  | cons a rs ih =>
    simp only [write_page, List.foldl_cons]
    exact ih (nodup_insertIfAbsent _ _ h)

theorem nodup_write_page_norm {α : Type} (key : α → Key) (rs : List α) {db : DB α}
    (h : NoDupKeys db.norm) : NoDupKeys (write_page key db rs).norm := by
  induction rs generalizing db with
  | nil => simpa [write_page]
  | cons a rs ih =>
    simp only [write_page, List.foldl_cons]
    exact ih (nodup_insertIfAbsent _ _ h)

/-! ### Drain lemmas for the fetch loops -/

theorem all_records_cons {α : Type} (p : Page α) (rest : List (Page α)) :
    all_records (p :: rest) = p.records ++ all_records rest := by
  simp [all_records]

theorem fetch_one_day_go_spec (pages : List (Page Quote)) (db : DB Quote) (saved : Nat)
    (hc : chainB pages = true) (hok : pages_ok pages = true) :
    fetch_one_day_go pages db saved =
      (write_page quoteKey db (all_records pages), saved + (all_records pages).length) := by
  induction pages generalizing db saved with
  | nil => simp [chainB] at hc
  | cons p rest ih =>
    cases rest with
    | nil =>
      have hcur : truthy p.cursor = false := by simpa [chainB] using hc
      by_cases he : p.records.isEmpty
      · have : p.records = [] := by simpa using he
        simp [fetch_one_day_go, he, all_records, this, write_page]
      · have he' : p.records.isEmpty = false := by simpa using he
        simp [fetch_one_day_go, he', hcur, all_records]
    | cons q rest' =>
      have hc' : truthy p.cursor = true ∧ chainB (q :: rest') = true := by
        simpa [chainB] using hc
      have hmem : (!truthy p.cursor || !p.records.isEmpty) = true :=
        (List.all_eq_true.mp hok) p (by simp)
      have he' : p.records.isEmpty = false := by
        rcases Bool.or_eq_true_iff.mp hmem with h | h
        · rw [hc'.1] at h; cases h
        · simpa using h
      have hok' : pages_ok (q :: rest') = true := by
        rw [pages_ok, List.all_eq_true] at hok ⊢
        exact fun x hx => hok x (by simp [hx])
      rw [fetch_one_day_go]
      simp only [he', Bool.false_eq_true, if_false, hc'.1, if_true]
      rw [ih _ _ hc'.2 hok', all_records_cons p (q :: rest'),
        write_page_append quoteKey db p.records (all_records (q :: rest'))]
      simp only [Prod.mk.injEq, List.length_append]
      exact ⟨trivial, by omega⟩

theorem drain_step3_spec {α : Type} (key : α → Key) (pages : List (Page α)) (db : DB α)
    (hc : chainB pages = true) :
    drain_step3 key pages db = write_page key db (all_records pages) := by
  induction pages generalizing db with
  | nil => simp [chainB] at hc
  | cons p rest ih =>
    cases rest with
    | nil =>
      have hcur : truthy p.cursor = false := by simpa [chainB] using hc
      simp [drain_step3, hcur, all_records]
    | cons q rest' =>
      have hc' : truthy p.cursor = true ∧ chainB (q :: rest') = true := by
        simpa [chainB] using hc
      rw [drain_step3]
      simp only [hc'.1, if_true]
      rw [ih _ hc'.2, all_records_cons p (q :: rest'),
        write_page_append key db p.records (all_records (q :: rest'))]

/-! ### Retry ledger -/

/-- One row of failed_dates / financial_failed_dates:
(Date TEXT PRIMARY KEY, last_error TEXT, retry_count INTEGER DEFAULT 0). -/
structure LedgerEntry where
  Date : Nat
  last_error : String
  retry_count : Nat
deriving DecidableEq, Repr

abbrev Ledger := List LedgerEntry

/-- SELECT the row with the given date, if any. -/
def lookup (L : Ledger) (d : Nat) : Option LedgerEntry :=
  L.find? fun e => e.Date == d

/-- COALESCE((SELECT retry_count FROM t WHERE Date=?), 0). -/
def prev_retry (L : Ledger) (d : Nat) : Nat :=
  match lookup L d with
  | some e => e.retry_count
  | none => 0

/-- DELETE FROM failed_dates WHERE Date=?, run on a successful (re)fetch
(run_update of step 1/2, main of step 3). -/
def delete_failed (L : Ledger) (d : Nat) : Ledger :=
  L.filter fun e => !(e.Date == d)

/-- log_failure of jquants_step3.py: INSERT OR REPLACE with
retry_count = COALESCE((SELECT retry_count FROM t WHERE Date=?), 0) + 1;
the identical statement is inlined for financial_failed_dates in main. -/
def log_failure (L : Ledger) (d : Nat) (err : String) : Ledger :=
  (L.filter fun e => !(e.Date == d)) ++
    [{ Date := d, last_error := err, retry_count := prev_retry L d + 1 }]

/-- UPDATE failed_dates SET retry_count = retry_count + 1, last_error = ?
WHERE Date=?, the retry-phase failure handler of run_update (step 1/2). -/
def bump_failed (L : Ledger) (d : Nat) (err : String) : Ledger :=
  L.map fun e =>
    if e.Date == d then
      { Date := e.Date, last_error := err, retry_count := e.retry_count + 1 }
    else e

/-- INSERT OR IGNORE INTO failed_dates(Date, last_error, retry_count)
VALUES (?, ?, 0), the forward-phase failure handler of run_update. -/
def insert_or_ignore_failed (L : Ledger) (d : Nat) (err : String) : Ledger :=
  if (lookup L d).isSome then L
  else L ++ [{ Date := d, last_error := err, retry_count := 0 }]

/-- k consecutive recorded failures for the same date via log_failure. -/
def iter_fail (L : Ledger) (d : Nat) (err : String) : Nat → Ledger
  | 0 => L
  | k + 1 => log_failure (iter_fail L d err k) d err

theorem lookup_filter_ne (L : Ledger) (d : Nat) :
    lookup (L.filter fun e => !(e.Date == d)) d = none := by
  rw [lookup, List.find?_eq_none]
  intro x hx
  rw [List.mem_filter] at hx
  simpa using hx.2

theorem lookup_log_failure (L : Ledger) (d : Nat) (err : String) :
    lookup (log_failure L d err) d =
      some { Date := d, last_error := err, retry_count := prev_retry L d + 1 } := by
  rw [log_failure, lookup, List.find?_append]
  have h := lookup_filter_ne L d
  rw [lookup] at h
  rw [h]
  simp [List.find?]

theorem lookup_delete_failed (L : Ledger) (d : Nat) :
    lookup (delete_failed L d) d = none :=
  lookup_filter_ne L d

theorem lookup_iter_fail (L : Ledger) (d : Nat) (err : String)
    (h : lookup L d = none) :
    ∀ k, 1 ≤ k → lookup (iter_fail L d err k) d =
      some { Date := d, last_error := err, retry_count := k } := by
  intro k
  induction k with
  | zero => omega
  | succ k ih =>
    intro _
    rcases Nat.eq_zero_or_pos k with hk | hk
    · subst hk
      rw [iter_fail, lookup_log_failure]
      simp [prev_retry, iter_fail, h]
    · have hik := ih hk
      rw [iter_fail, lookup_log_failure]
      simp [prev_retry, hik]

/-! ### Failed-date query -/

def MAX_RETRY : Nat := 3

/-- ORDER BY retry_count, Date as a boolean total preorder on rows. -/
def retryLe (e f : LedgerEntry) : Bool :=
  decide (e.retry_count < f.retry_count) ||
    (decide (e.retry_count = f.retry_count) && decide (e.Date ≤ f.Date))

/-- get_failed_dates of jquants_step1_2.py: SELECT Date FROM failed_dates
WHERE retry_count < MAX_RETRY ORDER BY retry_count, Date. -/
def get_failed_dates (L : Ledger) : List Nat :=
  ((L.filter fun e => decide (e.retry_count < MAX_RETRY)).mergeSort retryLe).map
    LedgerEntry.Date

theorem retryLe_trans (a b c : LedgerEntry) (hab : retryLe a b = true)
    (hbc : retryLe b c = true) : retryLe a c = true := by
  simp only [retryLe, Bool.or_eq_true, Bool.and_eq_true, decide_eq_true_eq] at hab hbc ⊢
  omega

theorem retryLe_total (a b : LedgerEntry) : (retryLe a b || retryLe b a) = true := by
  simp only [retryLe, Bool.or_eq_true, Bool.and_eq_true, decide_eq_true_eq]
  omega

theorem mem_get_failed_dates (L : Ledger) (d : Nat) :
    d ∈ get_failed_dates L ↔ ∃ e ∈ L, e.Date = d ∧ e.retry_count < MAX_RETRY := by
  simp only [get_failed_dates, List.mem_map, List.mem_mergeSort, List.mem_filter,
    decide_eq_true_eq]
  constructor
  · rintro ⟨e, ⟨heL, hlt⟩, rfl⟩
    exact ⟨e, heL, rfl, hlt⟩
  · rintro ⟨e, heL, rfl, hlt⟩
    exact ⟨e, ⟨heL, hlt⟩, rfl⟩

/-! ### Orchestrators -/

/-- One for-loop over date units: step the ledger per date and record the
attempted date. The loop body catches the fetch exception, so every date
of the plan is attempted regardless of outcomes. -/
def phase (step : Ledger → Nat → Ledger) : List Nat → Ledger → Ledger × List Nat
  | [], L => (L, [])
  | d :: ds, L =>
    let r := phase step ds (step L d)
    (r.1, d :: r.2)

theorem phase_trace (step : Ledger → Nat → Ledger) (ds : List Nat) (L : Ledger) :
    (phase step ds L).2 = ds := by
  induction ds generalizing L with
  | nil => rfl
  | cons d ds ih => simp [phase, ih]

/-- Per-date body of the retry phase of run_update (step 1/2): delete the
row on success, else UPDATE retry_count + 1 and overwrite last_error. -/
def retry_step (fetchOk : Nat → Bool) (errOf : Nat → String) (L : Ledger) (d : Nat) : Ledger :=
  if fetchOk d then delete_failed L d else bump_failed L d (errOf d)

/-- Per-date body of the forward phase of run_update (step 1/2): INSERT OR
IGNORE a fresh row with retry_count 0 on failure; success leaves the
ledger untouched. -/
def forward_step (fetchOk : Nat → Bool) (errOf : Nat → String) (L : Ledger) (d : Nat) : Ledger :=
  if fetchOk d then L else insert_or_ignore_failed L d (errOf d)

/-- run_update of jquants_step1_2.py, restricted to its ledger effect and
its attempt order: the retry phase over get_failed_dates runs first, then
the forward phase over the trading days resolved from the calendar. The
oracle fetchOk models fetch_one_day returning (true) or raising (false);
errOf is str(e) of the raised exception. Returns the final ledger and the
two attempt traces. -/
def run_update (fetchOk : Nat → Bool) (errOf : Nat → String) (trading_days : List Nat)
    (L : Ledger) : Ledger × List Nat × List Nat :=
  let r1 := phase (retry_step fetchOk errOf) (get_failed_dates L) L
  let r2 := phase (forward_step fetchOk errOf) trading_days r1.1
  (r2.1, r1.2, r2.2)

/-- The database state main of jquants_step3.py reads at run start: the
date extents of the two archive tables and the two ledgers. -/
structure Step3State where
  quotesRawDates : List Nat
  finRawDates : List Nat
  failed : Ledger
  fin_failed : Ledger
deriving DecidableEq, Repr

/-- get_latest_price_date: SELECT MAX(Date) FROM daily_quotes_raw. -/
def get_latest_price_date (st : Step3State) : Option Nat :=
  st.quotesRawDates.max?

/-- get_latest_fin_date: SELECT MAX(DisclosedDate) FROM financials_raw. -/
def get_latest_fin_date (st : Step3State) : Option Nat :=
  st.finRawDates.max?

/-- start = latest_price + timedelta(days=1) if latest_price else
today - timedelta(days=365). -/
def startQuotes (st : Step3State) (today : Nat) : Nat :=
  match get_latest_price_date st with
  | some w => w + 1
  | none => today - 365

/-- d = latest_fin + timedelta(days=1) if latest_fin else
today - timedelta(days=365 * 2). -/
def startFin (st : Step3State) (today : Nat) : Nat :=
  match get_latest_fin_date st with
  | some w => w + 1
  | none => today - 730

/-- The financials while-loop: every calendar date from startFin through
today inclusive. -/
def fin_range (st : Step3State) (today : Nat) : List Nat :=
  List.range' (startFin st today) (today + 1 - startFin st today)

/-- Per-date body of the quotes loop of main (step 3): on success DELETE
the failed_dates row, on failure log_failure. -/
def quotes_step (quotesOk : Nat → Bool) (errOf : Nat → String) (F : Ledger) (d : Nat) : Ledger :=
  if quotesOk d then delete_failed F d else log_failure F d (errOf d)

/-- Per-date body of the financials loop of main (step 3): on success
DELETE the financial_failed_dates row, on failure the inlined INSERT OR
REPLACE, identical to log_failure. -/
def fin_step (finOk : Nat → Bool) (errOf : Nat → String) (F : Ledger) (d : Nat) : Ledger :=
  if finOk d then delete_failed F d else log_failure F d (errOf d)

structure RunTrace where
  quoteAttempts : List Nat
  finAttempts : List Nat
deriving DecidableEq, Repr

/-- main of jquants_step3.py, restricted to ledger effects and attempt
traces. The calendar oracle models get_trading_days(start, today): it
returns the trading-day list or raises, and main has no handler for that
exception, so it propagates out of the whole run. There is no
retry-reprocessing phase: main never reads the ledgers. -/
def main (calendar : Nat → Nat → Except String (List Nat)) (quotesOk finOk : Nat → Bool)
    (errOf : Nat → String) (today : Nat) (st : Step3State) :
    Except String (Step3State × RunTrace) :=
  match calendar (startQuotes st today) today with
  | Except.error e => Except.error e
  | Except.ok target_days =>
    let r1 := phase (quotes_step quotesOk errOf) target_days st.failed
    let r2 := phase (fin_step finOk errOf) (fin_range st today) st.fin_failed
    Except.ok ({ st with failed := r1.1, fin_failed := r2.1 }, ⟨r1.2, r2.2⟩)

/-! ### Calendar resolver -/

/-- One element of the trading_calendar response array. -/
structure CalEntry where
  Date : Nat
  HolidayDivision : String
deriving DecidableEq, Repr

/-- get_trading_days of jquants_step1_2.py (identical in jquants_step3.py):
the resp argument is the decoded trading_calendar array of the response to
the request with from=startD, to=endD; the comprehension keeps exactly the
entries with HolidayDivision == "1", in response order. -/
def get_trading_days (startD endD : Nat) (resp : List CalEntry) : List Nat :=
  (resp.filter fun e => e.HolidayDivision == "1").map CalEntry.Date

/-! ### Screening query of select_stocks.py -/

/-- The financial columns the screening SQL reads. TEXT columns that are
NULL or the empty string are modelled as none; a present value is its
CAST(... AS REAL) numeric reading. -/
structure FinScreenRow where
  Profit : Option ℚ
  Equity : Option ℚ
  EarningsPerShare : Option ℚ
  ForecastEarningsPerShare : Option ℚ
  NetSales : Option ℚ
  ForecastNetSales : Option ℚ

/-- The price columns the screening SQL reads. -/
structure PriceScreenRow where
  Close : ℚ
  Volume : ℚ

/-- The WHERE clause of the screening SQL: profit and equity present and
positive, forecast EPS present and positive, forecast net sales above 95
percent of prior net sales, volume above 10000, ROE at least 0.08, and
PER between 5 and 40 inclusive. -/
def passes_filters (f : FinScreenRow) (p : PriceScreenRow) : Prop :=
  match f.Profit, f.Equity, f.ForecastEarningsPerShare, f.NetSales, f.ForecastNetSales with
  | some profit, some equity, some feps, some ns, some fns =>
      0 < profit ∧ 0 < equity ∧
      0 < feps ∧
      ns * (95 / 100) < fns ∧
      (10000 : ℚ) < p.Volume ∧
      (8 / 100 : ℚ) ≤ profit / equity ∧
      (5 : ℚ) ≤ p.Close / feps ∧ p.Close / feps ≤ 40
  | _, _, _, _, _ => False

/-- eps_growth of the scoring loop:
(forecast_eps - eps) / abs(eps) if eps > 0 else 0. -/
def eps_growth (eps forecast_eps : ℚ) : ℚ :=
  if 0 < eps then (forecast_eps - eps) / |eps| else 0

/-- score of the scoring loop:
roe * 100 * 0.5 + eps_growth * 100 * 0.3 + log10(volume) * 10 * 0.2. -/
noncomputable def score (roe eps_g volume : ℚ) : ℝ :=
  (roe : ℝ) * 100 * 0.5 + (eps_g : ℝ) * 100 * 0.3 +
    Real.logb 10 (volume : ℝ) * 10 * 0.2

theorem logb_50000_lt : Real.logb 10 50000 < 19 / 4 := by
  have h : (50000 : ℝ) ^ (4 : ℕ) < (10 : ℝ) ^ (19 : ℕ) := by norm_num
  have h2 := Real.logb_lt_logb (b := 10) (by norm_num) (by positivity) h
  rw [Real.logb_pow, Real.logb_pow, Real.logb_self_eq_one (by norm_num)] at h2
  push_cast at h2
  linarith

theorem lt_logb_50000 : 93 / 20 < Real.logb 10 50000 := by
  have h : (10 : ℝ) ^ (93 : ℕ) < (50000 : ℝ) ^ (20 : ℕ) := by norm_num
  have h2 := Real.logb_lt_logb (b := 10) (by norm_num) (by positivity) h
  rw [Real.logb_pow, Real.logb_pow, Real.logb_self_eq_one (by norm_num)] at h2
  push_cast at h2
  linarith

/-! ### Auxiliary facts about List.max? over Nat -/

theorem max?_spec {l : List Nat} {w : Nat} (h : l.max? = some w) :
    w ∈ l ∧ ∀ b ∈ l, b ≤ w := by
  rw [List.max?_eq_some_iff] at h
  · exact h
  · exact fun a => le_refl a
  · exact fun a b => max_choice a b
  · exact fun a b c => Nat.max_le

theorem max?_isSome_of_mem {l : List Nat} {d : Nat} (h : d ∈ l) :
    ∃ w, l.max? = some w := by
  cases l with
  | nil => cases h
  | cons a l => exact ⟨l.foldl max a, rfl⟩

/-! ### Concrete fixtures used by counterexamples and witnesses -/

def emptyQuotesDB : DB Quote := { raw := [], norm := [] }

/-- A first response page with no records but a truthy pagination_key,
followed by a final page holding one record. -/
def c1pages : List (Page Quote) :=
  [{ records := [], cursor := some "k" },
   { records := [{ Date := "2024-01-04", Code := "1301", body := "x" }], cursor := none }]

/-- A well-formed two-page chain with records on both pages. -/
def c1wpages : List (Page Quote) :=
  [{ records := [{ Date := "2024-01-04", Code := "1301", body := "a" }], cursor := some "k" },
   { records := [{ Date := "2024-01-04", Code := "7203", body := "b" }], cursor := none }]

def c10pages : List (Page Quote) :=
  [{ records := [], cursor := some "p" },
   { records := [{ Date := "2024-01-05", Code := "7203", body := "y" }], cursor := none }]

def c10wpages : List (Page Quote) :=
  [{ records := [{ Date := "2024-01-09", Code := "1301", body := "a" },
                 { Date := "2024-01-09", Code := "1332", body := "b" }], cursor := some "n" },
   { records := [{ Date := "2024-01-09", Code := "7203", body := "c" }], cursor := none }]

def qW : Quote := { Date := "2024-02-01", Code := "1301", body := "w" }

def L4 : Ledger :=
  [{ Date := 20240110, last_error := "x", retry_count := 3 },
   { Date := 20240108, last_error := "y", retry_count := 1 },
   { Date := 20240109, last_error := "z", retry_count := 0 }]

def st5w : Step3State := { quotesRawDates := [], finRawDates := [], failed := [], fin_failed := [] }

def st5c : Step3State :=
  { quotesRawDates := [10], finRawDates := [20],
    failed := [{ Date := 5, last_error := "e", retry_count := 0 }], fin_failed := [] }

def st6 : Step3State := { quotesRawDates := [100, 40], finRawDates := [], failed := [], fin_failed := [] }

def st8 : Step3State := { quotesRawDates := [3], finRawDates := [], failed := [], fin_failed := [] }

def st8c : Step3State := { quotesRawDates := [], finRawDates := [], failed := [], fin_failed := [] }

def f9 : FinScreenRow :=
  { Profit := some 100, Equity := some 1000, EarningsPerShare := some 4,
    ForecastEarningsPerShare := some 5, NetSales := some 100, ForecastNetSales := some 96 }

def p9 : PriceScreenRow := { Close := 50, Volume := 50000 }

/-! ### Claim C1 -/

/-- C1 counterexample: the claim says a page with zero records that still
carries a pagination cursor does not end the drain, and that every record
of every page is written. But fetch_one_day (step 1/2) breaks on the empty
record array before looking at the pagination_key: on a chain whose first
response is empty with a truthy cursor and whose second response holds one
record, it writes nothing and returns 0 instead of draining the record. -/
theorem C1_counterexample :
    fetch_one_day c1pages emptyQuotesDB = (emptyQuotesDB, 0) ∧
    (all_records c1pages).length = 1 ∧
    truthy (Page.cursor { records := ([] : List Quote), cursor := some "k" }) = true := by
  exact ⟨rfl, rfl, rfl⟩

/-- C1 (amended): on a well-formed cursor chain in which every page that
still announces a continuation is nonempty, fetch_one_day (step 1/2)
drains all pages, writes every record of every page to both the archive
and the normalized table, and returns the count of records processed (so
an empty sole page yields 0 and no writes); fetch_daily_quotes_one_day
and fetch_financials_one_day (step 3) drain every chain until a response
carries no truthy pagination_key, writing every record to both tables,
but return no count. All raise only when the transport layer raises. -/
theorem C1_amended_drain (pages : List (Page Quote)) (db : DB Quote)
    (hc : chainB pages = true) (hok : pages_ok pages = true) :
    fetch_one_day pages db =
      (write_page quoteKey db (all_records pages), (all_records pages).length) ∧
    fetch_daily_quotes_one_day pages db = write_page quoteKey db (all_records pages) ∧
    (∀ q ∈ all_records pages,
      quoteKey q ∈ keys (fetch_one_day pages db).1.raw ∧
      quoteKey q ∈ keys (fetch_one_day pages db).1.norm) ∧
    (∀ (spages : List (Page Statement)) (fdb : DB Statement), chainB spages = true →
      fetch_financials_one_day spages fdb = write_page stmtKey fdb (all_records spages)) := by
  have h1 : fetch_one_day pages db =
      (write_page quoteKey db (all_records pages), (all_records pages).length) := by
    rw [fetch_one_day, fetch_one_day_go_spec pages db 0 hc hok]
    simp
  refine ⟨h1, drain_step3_spec quoteKey pages db hc, ?_,
    fun spages fdb hsc => drain_step3_spec stmtKey spages fdb hsc⟩
  intro q hq
  rw [h1]
  exact ⟨mem_keys_write_page_raw quoteKey db hq, mem_keys_write_page_norm quoteKey db hq⟩

/-- C1 witness: the amended drain theorem applied to a concrete two-page
chain with one record per page. -/
theorem C1_amended_drain_witness :
    fetch_one_day c1wpages emptyQuotesDB =
      (write_page quoteKey emptyQuotesDB (all_records c1wpages), 2) :=
  (C1_amended_drain c1wpages emptyQuotesDB (by decide) (by decide)).1

/-! ### Claim C2 -/

/-- C2 counterexample: the claim says recording a failure for a date with
no ledger entry inserts retry_count = 0. log_failure (step 3) computes
COALESCE(prior, 0) + 1, so a first failure is recorded with
retry_count = 1, not 0. -/
theorem C2_counterexample :
    lookup (log_failure [] 20240105 "boom") 20240105 =
      some { Date := 20240105, last_error := "boom", retry_count := 1 } ∧
    (1 : Nat) ≠ 0 :=
  ⟨rfl, by decide⟩

/-- C2 (amended): log_failure inserts a new entry with retry_count = 1
when no entry for the date exists, and otherwise replaces the entry with
retry_count incremented by 1 and last_error overwritten; consequently
after k consecutive failures (k at least 1) the entry has
retry_count == k, and a subsequent successful ingestion deletes the
entry. -/
theorem C2_amended_ledger :
    (∀ (L : Ledger) (d : Nat) (err : String), lookup L d = none →
      lookup (log_failure L d err) d =
        some { Date := d, last_error := err, retry_count := 1 }) ∧
    (∀ (L : Ledger) (d : Nat) (err : String) (e : LedgerEntry), lookup L d = some e →
      lookup (log_failure L d err) d =
        some { Date := d, last_error := err, retry_count := e.retry_count + 1 }) ∧
    (∀ (L : Ledger) (d : Nat) (err : String) (k : Nat), lookup L d = none → 1 ≤ k →
      lookup (iter_fail L d err k) d =
        some { Date := d, last_error := err, retry_count := k }) ∧
    (∀ (L : Ledger) (d : Nat), lookup (delete_failed L d) d = none) := by
  refine ⟨?_, ?_, ?_, fun L d => lookup_delete_failed L d⟩
  · intro L d err h
    rw [lookup_log_failure]
    simp [prev_retry, h]
  · intro L d err e h
    rw [lookup_log_failure]
    simp [prev_retry, h]
  · intro L d err k h hk
    exact lookup_iter_fail L d err h k hk

/-- C2 witness: three consecutive failures leave retry_count 3, and the
success handler removes the entry. -/
theorem C2_amended_ledger_witness :
    lookup (iter_fail [] 20240105 "boom" 3) 20240105 =
      some { Date := 20240105, last_error := "boom", retry_count := 3 } ∧
    lookup (delete_failed (iter_fail [] 20240105 "boom" 3) 20240105) 20240105 = none :=
  ⟨C2_amended_ledger.2.2.1 [] 20240105 "boom" 3 rfl (by omega),
   C2_amended_ledger.2.2.2 _ _⟩

/-! ### Claim C3 -/

/-- C3: the dual write is insert-if-absent on both tables: starting from
tables satisfying the primary-key invariant, ingesting a record list
preserves the invariant, ingesting it a second time is a no-op, every
ingested record's key has exactly one row in each table, and writing a
record whose key is already present in both tables changes neither. This
covers daily_quotes_raw / daily_quotes (key (Date, Code)) and
financials_raw / financials (key (DisclosedDate, LocalCode)) alike. -/
theorem C3_insert_if_absent {α : Type} (key : α → Key) (db : DB α) (rs : List α)
    (h1 : NoDupKeys db.raw) (h2 : NoDupKeys db.norm) :
    NoDupKeys (write_page key db rs).raw ∧ NoDupKeys (write_page key db rs).norm ∧
    write_page key (write_page key db rs) rs = write_page key db rs ∧
    (∀ r ∈ rs, countKey (write_page key db rs).raw (key r) = 1 ∧
      countKey (write_page key db rs).norm (key r) = 1) ∧
    (∀ r, key r ∈ keys db.raw → key r ∈ keys db.norm → write_rec key db r = db) := by
  refine ⟨nodup_write_page_raw key rs h1, nodup_write_page_norm key rs h2,
    write_page_idem key db rs, ?_, fun r hr hn => write_rec_of_present key hr hn⟩
  intro r hr
  constructor
  · simp only [countKey]
    exact List.count_eq_one_of_mem (nodup_write_page_raw key rs h1)
      (mem_keys_write_page_raw key db hr)
  · simp only [countKey]
    exact List.count_eq_one_of_mem (nodup_write_page_norm key rs h2)
      (mem_keys_write_page_norm key db hr)

/-- C3 witness: ingesting a record twice leaves one row per table, and
the double ingestion equals the single one. -/
theorem C3_insert_if_absent_witness :
    write_page quoteKey (write_page quoteKey emptyQuotesDB [qW]) [qW] =
      write_page quoteKey emptyQuotesDB [qW] ∧
    countKey (write_page quoteKey emptyQuotesDB [qW]).raw (quoteKey qW) = 1 := by
  have h := C3_insert_if_absent quoteKey emptyQuotesDB [qW]
    (by simp [NoDupKeys, keys, emptyQuotesDB]) (by simp [NoDupKeys, keys, emptyQuotesDB])
  exact ⟨h.2.2.1, (h.2.2.2.1 qW (by simp)).1⟩

/-! ### Claim C4 -/

/-- C4: with MAX_RETRY = 3, get_failed_dates returns exactly the dates of
ledger entries whose retry_count is strictly below MAX_RETRY, as the
date projection of the rows sorted by ascending retry_count then
ascending date; entries at or above MAX_RETRY are excluded from the
result yet remain rows of the ledger (the query reads and never deletes). -/
theorem C4_pending_retries (L : Ledger) (hnd : (L.map LedgerEntry.Date).Nodup) :
    (∀ d, d ∈ get_failed_dates L ↔ ∃ e ∈ L, e.Date = d ∧ e.retry_count < MAX_RETRY) ∧
    get_failed_dates L =
      ((L.filter fun e => decide (e.retry_count < MAX_RETRY)).mergeSort retryLe).map
        LedgerEntry.Date ∧
    ((L.filter fun e => decide (e.retry_count < MAX_RETRY)).mergeSort retryLe).Pairwise
      (fun e f => retryLe e f = true) ∧
    (∀ e ∈ L, MAX_RETRY ≤ e.retry_count → e.Date ∉ get_failed_dates L ∧ e ∈ L) := by
  refine ⟨mem_get_failed_dates L, rfl,
    List.sorted_mergeSort retryLe_trans retryLe_total _, ?_⟩
  intro e heL hge
  refine ⟨?_, heL⟩
  intro hmem
  rcases (mem_get_failed_dates L e.Date).mp hmem with ⟨e', he'L, hdate, hlt⟩
  have he : e' = e := List.inj_on_of_nodup_map hnd he'L heL hdate
  rw [he] at hlt
  exact absurd hlt (not_lt.mpr hge)

/-- C4 witness: on a concrete ledger the still-pending date is returned
and the exhausted date (retry_count = 3) is excluded. -/
theorem C4_pending_retries_witness :
    20240108 ∈ get_failed_dates L4 ∧ 20240110 ∉ get_failed_dates L4 := by
  have h := C4_pending_retries L4 (by decide)
  refine ⟨(h.1 20240108).mpr ?_, (h.2.2.2 { Date := 20240110, last_error := "x", retry_count := 3 }
    (by simp [L4]) (by decide)).1⟩
  exact ⟨{ Date := 20240108, last_error := "y", retry_count := 1 }, by simp [L4], rfl, by decide⟩

/-! ### Claim C5 -/

/-- C5 counterexample: the claim says every run reprocesses the pending
retry-ledger dates before forward ingestion. main (step 3) never reads
the ledger: with a pending entry for date 5 (retry_count 0 < MAX_RETRY)
and a forward plan containing no dates, the run attempts nothing at
all — date 5 is never retried. -/
theorem C5_counterexample :
    main (fun _ _ => Except.ok []) (fun _ => true) (fun _ => true) (fun _ => "e") 10 st5c =
      Except.ok (st5c, { quoteAttempts := [], finAttempts := [] }) ∧
    ({ Date := 5, last_error := "e", retry_count := 0 } : LedgerEntry) ∈ st5c.failed ∧
    (0 : Nat) < MAX_RETRY := by
  refine ⟨rfl, by simp [st5c], by decide⟩

/-- C5 (amended): in run_update (step 1/2) the retry phase over
get_failed_dates runs before the forward phase, and no single date-unit
failure aborts the run: whatever the per-date outcomes, the attempted
dates are exactly get_failed_dates of the initial ledger followed by the
trading days. main (step 3) has no retry-reprocessing phase, but it too
never aborts on a per-date failure: whenever the calendar call succeeds
it attempts exactly the returned trading days and then every date of the
financials range, for every outcome oracle. -/
theorem C5_amended_phases :
    (∀ (fetchOk : Nat → Bool) (errOf : Nat → String) (trading_days : List Nat) (L : Ledger),
      (run_update fetchOk errOf trading_days L).2.1 = get_failed_dates L ∧
      (run_update fetchOk errOf trading_days L).2.2 = trading_days) ∧
    (∀ (calendar : Nat → Nat → Except String (List Nat)) (quotesOk finOk : Nat → Bool)
      (errOf : Nat → String) (today : Nat) (st : Step3State) (target_days : List Nat),
      calendar (startQuotes st today) today = Except.ok target_days →
      ∃ st' : Step3State, main calendar quotesOk finOk errOf today st =
        Except.ok (st', { quoteAttempts := target_days, finAttempts := fin_range st today })) := by
  constructor
  · intro fetchOk errOf trading_days L
    exact ⟨phase_trace _ _ _, phase_trace _ _ _⟩
  · intro calendar quotesOk finOk errOf today st target_days h
    refine ⟨{ st with
        failed := (phase (quotes_step quotesOk errOf) target_days st.failed).1,
        fin_failed := (phase (fin_step finOk errOf) (fin_range st today) st.fin_failed).1 }, ?_⟩
    simp only [main, h]
    rw [phase_trace, phase_trace]

/-- C5 witness: the amended phase theorem at concrete inputs. -/
theorem C5_amended_phases_witness :
    (run_update (fun _ => false) (fun _ => "e") [7, 8] []).2.2 = [7, 8] ∧
    ∃ st', main (fun _ _ => Except.ok [3]) (fun _ => false) (fun _ => true) (fun _ => "e")
      10 st5w = Except.ok (st', { quoteAttempts := [3], finAttempts := fin_range st5w 10 }) :=
  ⟨(C5_amended_phases.1 (fun _ => false) (fun _ => "e") [7, 8] []).2,
   C5_amended_phases.2 (fun _ _ => Except.ok [3]) (fun _ => false) (fun _ => true)
     (fun _ => "e") 10 st5w [3] rfl⟩

/-! ### Claim C6 -/

/-- C6: forward ingestion of each dataset starts at watermark + 1 where
the watermark is the maximum date of the dataset's archive table,
recomputed from the table itself: the start strictly exceeds every
archived date, equals max + 1 when the archive is nonempty, and falls
back to today - 365 (quotes) respectively today - 730 (financials) when
the archive is empty, the price lookback being strictly shorter. -/
theorem C6_watermark (st : Step3State) (today : Nat) :
    (∀ d ∈ st.quotesRawDates, d < startQuotes st today) ∧
    (st.quotesRawDates = [] → startQuotes st today = today - 365) ∧
    (∀ w, get_latest_price_date st = some w →
      w ∈ st.quotesRawDates ∧ startQuotes st today = w + 1) ∧
    (∀ d ∈ st.finRawDates, d < startFin st today) ∧
    (st.finRawDates = [] → startFin st today = today - 730) ∧
    (∀ w, get_latest_fin_date st = some w →
      w ∈ st.finRawDates ∧ startFin st today = w + 1) ∧
    (365 : Nat) < 730 := by
  refine ⟨?_, ?_, ?_, ?_, ?_, ?_, by omega⟩
  · intro d hd
    rcases max?_isSome_of_mem hd with ⟨w, hw⟩
    have hle := (max?_spec hw).2 d hd
    have hst : startQuotes st today = w + 1 := by
      simp [startQuotes, get_latest_price_date, hw]
    omega
  · intro h
    simp [startQuotes, get_latest_price_date, h]
  · intro w hw
    have hw' : st.quotesRawDates.max? = some w := hw
    have hs := max?_spec hw'
    exact ⟨hs.1, by simp [startQuotes, get_latest_price_date, hw']⟩
  · intro d hd
    rcases max?_isSome_of_mem hd with ⟨w, hw⟩
    have hle := (max?_spec hw).2 d hd
    have hst : startFin st today = w + 1 := by
      simp [startFin, get_latest_fin_date, hw]
    omega
  · intro h
    simp [startFin, get_latest_fin_date, h]
  · intro w hw
    have hw' : st.finRawDates.max? = some w := hw
    have hs := max?_spec hw'
    exact ⟨hs.1, by simp [startFin, get_latest_fin_date, hw']⟩

/-- C6 witness: a quotes archive with maximum date 100 resumes at 101;
an empty financials archive falls back to today - 730. -/
theorem C6_watermark_witness :
    startQuotes st6 900 = 101 ∧ startFin st6 900 = 170 :=
  ⟨((C6_watermark st6 900).2.2.1 100 rfl).2, (C6_watermark st6 900).2.2.2.2.1 rfl⟩

/-! ### Claim C7 -/

/-- C7: trading-day resolution keeps exactly the calendar entries whose
HolidayDivision equals "1", in response order (the result is the date
projection of a sublist of the response); on the two-entry example only
the 2024-01-02 entry is returned. -/
theorem C7_trading_days (startD endD : Nat) (h : startD ≤ endD) (resp : List CalEntry) :
    (∀ d, d ∈ get_trading_days startD endD resp ↔
      ∃ e ∈ resp, e.HolidayDivision = "1" ∧ e.Date = d) ∧
    (get_trading_days startD endD resp).Sublist (resp.map CalEntry.Date) ∧
    get_trading_days 20240101 20240102
      [{ Date := 20240101, HolidayDivision := "0" },
       { Date := 20240102, HolidayDivision := "1" }] = [20240102] := by
  refine ⟨?_, List.Sublist.map CalEntry.Date (List.filter_sublist resp), by decide⟩
  intro d
  simp only [get_trading_days, List.mem_map, List.mem_filter, beq_iff_eq]
  constructor
  · rintro ⟨e, ⟨he, h1⟩, rfl⟩
    exact ⟨e, he, h1, rfl⟩
  · rintro ⟨e, he, h1, rfl⟩
    exact ⟨e, ⟨he, h1⟩, rfl⟩

/-- C7 witness: the trading-day theorem applied to the concrete two-entry
calendar. -/
theorem C7_trading_days_witness :
    20240102 ∈ get_trading_days 20240101 20240102
      [{ Date := 20240101, HolidayDivision := "0" },
       { Date := 20240102, HolidayDivision := "1" }] := by
  have h := C7_trading_days 20240101 20240102 (by omega)
    [{ Date := 20240101, HolidayDivision := "0" },
     { Date := 20240102, HolidayDivision := "1" }]
  rw [h.2.2]
  simp

/-! ### Claim C8 -/

/-- C8 counterexample: the claim says a calendar failure aborts only the
quotes phase while the financials phase still iterates its date range.
With an empty database (so the financials range start - today holds the
eleven dates 0..10) and a calendar call that raises, main propagates the
error: the whole run aborts and no financials date is ever attempted. -/
theorem C8_counterexample :
    main (fun _ _ => Except.error "boom") (fun _ => true) (fun _ => true) (fun _ => "e")
      10 st8c = Except.error "boom" ∧
    fin_range st8c 10 = [0, 1, 2, 3, 4, 5, 6, 7, 8, 9, 10] ∧
    (∀ x, main (fun _ _ => Except.error "boom") (fun _ => true) (fun _ => true)
      (fun _ => "e") 10 st8c ≠ Except.ok x) := by
  refine ⟨rfl, by decide, ?_⟩
  intro x hx
  rw [show main (fun _ _ => Except.error "boom") (fun _ => true) (fun _ => true)
    (fun _ => "e") 10 st8c = Except.error "boom" from rfl] at hx
  cases hx

/-- C8 (amended): if the calendar call of main (step 3) raises, the whole
run aborts with that error — neither the quotes phase nor the financials
phase executes. -/
theorem C8_amended_calendar_fatal (calendar : Nat → Nat → Except String (List Nat))
    (quotesOk finOk : Nat → Bool) (errOf : Nat → String) (today : Nat) (st : Step3State)
    (e : String) (h : calendar (startQuotes st today) today = Except.error e) :
    main calendar quotesOk finOk errOf today st = Except.error e := by
  simp [main, h]

/-- C8 witness: the amended theorem at a concrete failing calendar. -/
theorem C8_amended_calendar_fatal_witness :
    main (fun _ _ => Except.error "boom") (fun _ => true) (fun _ => true) (fun _ => "e")
      10 st8 = Except.error "boom" :=
  C8_amended_calendar_fatal (fun _ _ => Except.error "boom") (fun _ => true) (fun _ => true)
    (fun _ => "e") 10 st8 "boom" rfl

/-! ### Claim C9 -/

/-- C9: the scenario row (Profit 100, Equity 1000, ForecastEPS 5, EPS 4,
ForecastNetSales 96, NetSales 100, Close 50, Volume 50000) passes every
filter of the screening query, and its score equals
0.10*100*0.5 + ((5-4)/4)*100*0.3 + log10(50000)*10*0.2, which lies
strictly between 21.8 and 22 (approximately 21.9). -/
theorem C9_screening_scenario :
    passes_filters f9 p9 ∧
    score (100 / 1000) (eps_growth 4 5) 50000 =
      0.10 * 100 * 0.5 + ((5 - 4) / 4) * 100 * 0.3 + Real.logb 10 50000 * 10 * 0.2 ∧
    21.8 < score (100 / 1000) (eps_growth 4 5) 50000 ∧
    score (100 / 1000) (eps_growth 4 5) 50000 < 22 := by
  have hg : eps_growth 4 5 = 1 / 4 := by norm_num [eps_growth]
  have hs : score (100 / 1000) (eps_growth 4 5) 50000 =
      12.5 + Real.logb 10 50000 * 2 := by
    rw [score, hg]
    push_cast
    norm_num
    ring
  refine ⟨?_, ?_, ?_, ?_⟩
  · norm_num [passes_filters, f9, p9]
  · rw [hs]
    norm_num
    ring
  · rw [hs]
    have := lt_logb_50000
    linarith
  · rw [hs]
    have := logb_50000_lt
    linarith

/-! ### Claim C10 -/

/-- C10 counterexample: the two quote fetchers are not write-equivalent
on every page sequence: on a chain whose first response is empty but
carries a pagination cursor, fetch_one_day (step 1/2) stops and writes
nothing, while fetch_daily_quotes_one_day (step 3) drains on and writes
the second page's record. -/
theorem C10_counterexample :
    (fetch_one_day c10pages emptyQuotesDB).1 ≠
      fetch_daily_quotes_one_day c10pages emptyQuotesDB := by
  decide

/-- C10 (amended): on every well-formed cursor chain in which each page
that still announces a continuation is nonempty, fetch_one_day (step 1/2)
and fetch_daily_quotes_one_day (step 3) leave identical contents in the
archive and normalized tables. -/
theorem C10_amended_equiv (pages : List (Page Quote)) (db : DB Quote)
    (hc : chainB pages = true) (hok : pages_ok pages = true) :
    (fetch_one_day pages db).1 = fetch_daily_quotes_one_day pages db := by
  rw [fetch_one_day, fetch_one_day_go_spec pages db 0 hc hok, fetch_daily_quotes_one_day,
    drain_step3_spec quoteKey pages db hc]

/-- C10 witness: the write-equivalence at a concrete three-record,
two-page chain. -/
theorem C10_amended_equiv_witness :
    (fetch_one_day c10wpages emptyQuotesDB).1 =
      fetch_daily_quotes_one_day c10wpages emptyQuotesDB :=
  C10_amended_equiv c10wpages emptyQuotesDB (by decide) (by decide)

end JQuants
